import Mathlib

/-!
Verification of the callback registry subsystem of the idacpp repository
(file callbacks.hpp, class idacpp::callbacks::callback_registry and
class idacpp::callbacks::scoped_callback).

The C++ code is shallowly embedded as pure Lean functions:

* `callback_registry α β` models one instantiation
  `callback_registry<CPrototype, MaxCallbacks, Tag>` where the bridged C
  signature is `β(*)(α)`.  The three data members `callbacks_`, `handles_`
  and `next_handle_` are carried explicitly; the mutex is not modelled
  (operations are embedded as atomic state transformers).
* `callback_handle_t` is `uint32_t`; handle arithmetic is `Nat` reduced
  modulo `HANDLE_MOD = 2^32` exactly where the C++ overflows
  (`next_handle_++`).
* A trampoline / C function pointer is modelled by the slot index it is
  hard-wired to (`Option Nat`, `none` standing for `nullptr`), because
  `get_wrapper_for_index` returns the `Index`-th entry of a compile-time
  table of wrappers, one per slot, and `wrapper_function<Index>` reads
  `callbacks_[Index]`.
* `std::function` results use `Inhabited.default` for the value-initialised
  return `return_t{}` of an empty slot.
-/

namespace Idacpp

/-- Modulus of `callback_handle_t` (`uint32_t`). -/
def HANDLE_MOD : Nat := 4294967296

/-- `constexpr callback_handle_t INVALID_CALLBACK_HANDLE = 0;` -/
def INVALID_CALLBACK_HANDLE : Nat := 0

/-- State of one `callback_registry<CPrototype, MaxCallbacks, Tag>`
singleton: the members `callbacks_` (array of `std::function`, empty =
`none`), `handles_` (parallel array of handles) and `next_handle_`.
The capacity `MaxCallbacks` is the common length of the two lists. -/
structure callback_registry (α β : Type) where
  callbacks_ : List (Option (α → β))
  handles_ : List Nat
  next_handle_ : Nat

namespace callback_registry

/-- The freshly default-constructed singleton: `callbacks_{}` value
initialises every `std::function` to empty, `handles_{}` zero-initialises
every handle, `next_handle_ = 1`. -/
def init (α β : Type) (K : Nat) : callback_registry α β :=
  ⟨List.replicate K none, List.replicate K INVALID_CALLBACK_HANDLE, 1⟩

/-- The scan `for (i = 0; i < MaxCallbacks; ++i) if (!callbacks_[i])`
inside `register_callback`: index of the first empty slot. -/
def findSlot {α β : Type} : List (Option (α → β)) → Option Nat
  | [] => none
  | none :: _ => some 0
  | some _ :: rest => (findSlot rest).map (· + 1)

/-- `get_wrapper_for_index`: returns the `index`-th precompiled wrapper
(`&wrapper_function<index>`, modelled by the slot index itself) when
`index < MaxCallbacks`, else `nullptr` (`none`). -/
def get_wrapper_for_index (K index : Nat) : Option Nat :=
  if index < K then some index else none

/-- `register_callback(lambda_t cb)`: scans for the first empty slot; if
found, assigns `next_handle_++` (post-increment on `uint32_t`, hence the
`% HANDLE_MOD`), stores closure and handle there and returns the pair
`(handle, get_wrapper_for_index(i))`; otherwise returns `nullopt` with no
mutation. -/
def register_callback {α β : Type} (r : callback_registry α β) (cb : α → β) :
    Option (Nat × Option Nat) × callback_registry α β :=
  match findSlot r.callbacks_ with
  | some i =>
      (some (r.next_handle_, get_wrapper_for_index r.callbacks_.length i),
       ⟨r.callbacks_.set i (some cb), r.handles_.set i r.next_handle_,
        (r.next_handle_ + 1) % HANDLE_MOD⟩)
  | none => (none, r)

/-- The scan `for (i ...) if (handles_[i] == handle && callbacks_[i])`
inside `unregister_callback`: index of the first slot whose stored handle
matches and whose closure is non-empty. -/
def unregScan {α β : Type} :
    List (Option (α → β)) → List Nat → Nat → Option Nat
  | c :: cs, hd :: hs, h =>
      if hd = h ∧ c.isSome then some 0 else (unregScan cs hs h).map (· + 1)
  | _, _, _ => none

/-- `unregister_callback(handle)`: returns `false` at once for the
`INVALID_CALLBACK_HANDLE` sentinel; otherwise clears the first slot whose
handle matches (and holds a closure) and returns `true`, or returns
`false` leaving the state untouched. -/
def unregister_callback {α β : Type} (r : callback_registry α β) (h : Nat) :
    Bool × callback_registry α β :=
  if h = INVALID_CALLBACK_HANDLE then (false, r)
  else
    match unregScan r.callbacks_ r.handles_ h with
    | some i =>
        (true, ⟨r.callbacks_.set i none,
                r.handles_.set i INVALID_CALLBACK_HANDLE, r.next_handle_⟩)
    | none => (false, r)

/-- `unregister_all()`: clears every slot and handle, `next_handle_` is
not touched. -/
def unregister_all {α β : Type} (r : callback_registry α β) :
    callback_registry α β :=
  ⟨r.callbacks_.map (fun _ => none),
   r.handles_.map (fun _ => INVALID_CALLBACK_HANDLE), r.next_handle_⟩

/-- `size()`: number of non-empty slots. -/
def size {α β : Type} (r : callback_registry α β) : Nat :=
  r.callbacks_.countP (·.isSome)

/-- `capacity()`: the fixed `MaxCallbacks`. -/
def capacity {α β : Type} (r : callback_registry α β) : Nat :=
  r.callbacks_.length

/-- `wrapper_function<Index>(args...)`: copies `callbacks_[Index]` under
the shared lock (empty when `Index` is out of range), then outside the
lock invokes the copy, or returns the value-initialised `return_t{}`
(`default`) when the copy is empty.  The first component records which
closure (if any) was invoked. -/
def wrapper_function {α β : Type} [Inhabited β]
    (r : callback_registry α β) (i : Nat) (a : α) : Option (α → β) × β :=
  match r.callbacks_.getD i none with
  | some f => (some f, f a)
  | none => (none, default)

end callback_registry

/-- State of one `scoped_callback` object: members `handle_` and
`callback_` (the raw trampoline pointer, `none` = `nullptr`). -/
structure scoped_callback where
  handle_ : Nat
  callback_ : Option Nat

namespace scoped_callback

/-- The constructor `scoped_callback(Lambda&& cb)`: registers `cb`; on
success stores the returned handle and pointer, on failure keeps
`INVALID_CALLBACK_HANDLE` and `nullptr`. -/
def construct {α β : Type} (r : callback_registry α β) (cb : α → β) :
    scoped_callback × callback_registry α β :=
  match callback_registry.register_callback r cb with
  | (some (h, p), r1) => (⟨h, p⟩, r1)
  | (none, r1) => (⟨INVALID_CALLBACK_HANDLE, none⟩, r1)

/-- `reset()`: when `handle_` is valid, calls
`registry_t::instance().unregister_callback(handle_)` once and clears both
members; otherwise does nothing.  The last component counts how many times
`unregister_callback` was invoked (0 or 1). -/
def reset {α β : Type} (s : scoped_callback) (r : callback_registry α β) :
    scoped_callback × callback_registry α β × Nat :=
  if s.handle_ ≠ INVALID_CALLBACK_HANDLE then
    (⟨INVALID_CALLBACK_HANDLE, none⟩,
     (callback_registry.unregister_callback r s.handle_).2, 1)
  else (s, r, 0)

/-- The destructor `~scoped_callback()`: calls `reset()`. -/
def dtor {α β : Type} (s : scoped_callback) (r : callback_registry α β) :
    scoped_callback × callback_registry α β × Nat :=
  reset s r

/-- Move construction: the new object takes `handle_`/`callback_`, the
source is left with `INVALID_CALLBACK_HANDLE`/`nullptr`
(`std::exchange`).  Result: (moved-to object, source after move). -/
def move (s : scoped_callback) : scoped_callback × scoped_callback :=
  (⟨s.handle_, s.callback_⟩, ⟨INVALID_CALLBACK_HANDLE, none⟩)

/-- Move assignment (for distinct objects, `this != &other`): `reset()`
on the target, then exchange from the source.  Result: (target after,
source after, registry after, number of `unregister_callback` calls). -/
def move_assign {α β : Type} (dst src : scoped_callback)
    (r : callback_registry α β) :
    scoped_callback × scoped_callback × callback_registry α β × Nat :=
  match reset dst r with
  | (_, r1, n) =>
      (⟨src.handle_, src.callback_⟩, ⟨INVALID_CALLBACK_HANDLE, none⟩, r1, n)

/-- `release()`: forgets the handle and returns the pointer
(`std::exchange(callback_, nullptr)`) without unregistering. -/
def release (s : scoped_callback) : Option Nat × scoped_callback :=
  (s.callback_, ⟨INVALID_CALLBACK_HANDLE, none⟩)

/-- `is_valid()` / `operator bool`: tests only the pointer. -/
def is_valid (s : scoped_callback) : Bool :=
  s.callback_.isSome

/-- `get()` / `operator*`: the raw trampoline pointer. -/
def get (s : scoped_callback) : Option Nat :=
  s.callback_

end scoped_callback

/-- One mutating registry operation, for reachability statements. -/
inductive Op (α β : Type) where
  | reg : (α → β) → Op α β
  | unreg : Nat → Op α β
  | unregAll : Op α β

/-- Effect of one operation on the registry state. -/
def step {α β : Type} (r : callback_registry α β) : Op α β → callback_registry α β
  | .reg cb => (callback_registry.register_callback r cb).2
  | .unreg h => (callback_registry.unregister_callback r h).2
  | .unregAll => callback_registry.unregister_all r

/-- State after a sequence of operations. -/
def exec {α β : Type} (r : callback_registry α β) (ops : List (Op α β)) :
    callback_registry α β :=
  ops.foldl step r

/-- Number of successful registrations performed along a sequence. -/
def succCount {α β : Type} (r : callback_registry α β) : List (Op α β) → Nat
  | [] => 0
  | op :: rest =>
      (match op with
       | .reg cb =>
           if ((callback_registry.register_callback r cb).1).isSome then 1 else 0
       | _ => 0) + succCount (step r op) rest

/-- Handles returned by the successful registrations of a sequence, in
order. -/
def handleTrace {α β : Type} (r : callback_registry α β) : List (Op α β) → List Nat
  | [] => []
  | op :: rest =>
      (match op with
       | .reg cb =>
           match (callback_registry.register_callback r cb).1 with
           | some (h, _) => [h]
           | none => []
       | _ => []) ++ handleTrace (step r op) rest

/-- Successive registrations of a list of closures, collecting each
result. -/
def registerSeq {α β : Type} (r : callback_registry α β) :
    List (α → β) → List (Option (Nat × Option Nat)) × callback_registry α β
  | [] => ([], r)
  | cb :: rest =>
      match callback_registry.register_callback r cb with
      | (res, r1) =>
          match registerSeq r1 rest with
          | (ress, r2) => (res :: ress, r2)

/-- The per-slot registry invariant of the specification:
`handles_[i] != INVALID` iff `slots[i]` holds a closure. -/
def RegInv {α β : Type} (r : callback_registry α β) : Prop :=
  ∀ i, (r.handles_.getD i 0 ≠ 0 ↔ (r.callbacks_.getD i none).isSome)

/-- The scoped-callback invariant: the stored handle is the INVALID
sentinel iff the stored trampoline pointer is null. -/
def SCInv (s : scoped_callback) : Prop :=
  s.handle_ = INVALID_CALLBACK_HANDLE ↔ s.callback_ = none

/-- Register-then-unregister rounds that drive `next_handle_` forward
while returning the table to its previous contents: round `j` (0-based)
unregisters the handle `base + j` that it just obtained. -/
def pumpOps {α β : Type} (cb : α → β) (base : Nat) : Nat → List (Op α β)
  | 0 => []
  | k + 1 => pumpOps cb base k ++ [Op.reg cb, Op.unreg (base + k)]

/-! ### List-level helper lemmas -/

theorem getD_set_self {γ : Type} (l : List γ) (i : Nat) (a d : γ)
    (h : i < l.length) : (l.set i a).getD i d = a := by
  simp [List.getD_eq_getElem?_getD, List.getElem?_set_eq_of_lt a h]

theorem getD_set_ne {γ : Type} (l : List γ) (i j : Nat) (a d : γ)
    (h : i ≠ j) : (l.set i a).getD j d = l.getD j d := by
  simp [List.getD_eq_getElem?_getD, List.getElem?_set_ne h]

theorem set_getD_eq_self {γ : Type} :
    ∀ (l : List γ) (i : Nat) (d : γ), l.getD i d = d → l.set i d = l
  | [], _, _, _ => rfl
  | a :: l, 0, d, h => by
      simp only [List.getD_cons_zero] at h
      simp [h]
  | a :: l, i + 1, d, h => by
      simp only [List.getD_cons_succ] at h
      simp [set_getD_eq_self l i d h]

theorem getD_replicate_self {γ : Type} :
    ∀ (n i : Nat) (a : γ), (List.replicate n a).getD i a = a
  | 0, _, _ => by simp [List.getD]
  | _ + 1, 0, _ => rfl
  | n + 1, i + 1, a => getD_replicate_self n i a

theorem getD_map_const {γ δ : Type} :
    ∀ (l : List γ) (i : Nat) (c : δ), ((l.map (fun _ => c)).getD i c) = c
  | [], _, _ => rfl
  | _ :: _, 0, _ => rfl
  | _ :: l, i + 1, c => getD_map_const l i c

/-! ### findSlot lemmas -/

theorem findSlot_spec {α β : Type} :
    ∀ (cs : List (Option (α → β))) (i : Nat),
      callback_registry.findSlot cs = some i →
      i < cs.length ∧ cs.getD i none = none ∧
        ∀ j, j < i → (cs.getD j none).isSome
  | [], i, h => by simp [callback_registry.findSlot] at h
  | none :: rest, i, h => by
      simp only [callback_registry.findSlot] at h
      cases h
      exact ⟨Nat.succ_pos _, rfl, fun j hj => absurd hj (Nat.not_lt_zero j)⟩
  | some f :: rest, i, h => by
      simp only [callback_registry.findSlot, Option.map_eq_some'] at h
      obtain ⟨i', hi', rfl⟩ := h
      obtain ⟨h1, h2, h3⟩ := findSlot_spec rest i' hi'
      refine ⟨Nat.succ_lt_succ h1, h2, fun j hj => ?_⟩
      cases j with
      | zero => rfl
      | succ j' => exact h3 j' (Nat.lt_of_succ_lt_succ hj)

theorem findSlot_eq_none_iff {α β : Type} :
    ∀ (cs : List (Option (α → β))),
      callback_registry.findSlot cs = none ↔ ∀ c ∈ cs, c.isSome
  | [] => by simp [callback_registry.findSlot]
  | none :: rest => by
      simp [callback_registry.findSlot]
  | some f :: rest => by
      simp [callback_registry.findSlot, findSlot_eq_none_iff rest]

/-! ### unregScan lemmas -/

theorem unregScan_spec {α β : Type} :
    ∀ (cs : List (Option (α → β))) (hs : List Nat) (h i : Nat),
      callback_registry.unregScan cs hs h = some i →
      hs.getD i 0 = h ∧ (cs.getD i none).isSome ∧
        i < cs.length ∧ i < hs.length ∧
        ∀ j, j < i → ¬(hs.getD j 0 = h ∧ (cs.getD j none).isSome)
  | [], hs, h, i, hscan => by simp [callback_registry.unregScan] at hscan
  | c :: cs, [], h, i, hscan => by simp [callback_registry.unregScan] at hscan
  | c :: cs, hd :: hs, h, i, hscan => by
      simp only [callback_registry.unregScan] at hscan
      by_cases hmatch : hd = h ∧ c.isSome
      · rw [if_pos hmatch] at hscan
        cases hscan
        exact ⟨hmatch.1, hmatch.2, Nat.succ_pos _, Nat.succ_pos _,
          fun j hj => absurd hj (Nat.not_lt_zero j)⟩
      · rw [if_neg hmatch, Option.map_eq_some'] at hscan
        obtain ⟨i', hi', rfl⟩ := hscan
        obtain ⟨h1, h2, h3, h4, h5⟩ := unregScan_spec cs hs h i' hi'
        refine ⟨h1, h2, Nat.succ_lt_succ h3, Nat.succ_lt_succ h4,
          fun j hj => ?_⟩
        cases j with
        | zero => exact hmatch
        | succ j' => exact h5 j' (Nat.lt_of_succ_lt_succ hj)

theorem unregScan_eq_some {α β : Type} :
    ∀ (cs : List (Option (α → β))) (hs : List Nat) (h i : Nat),
      i < cs.length → i < hs.length →
      hs.getD i 0 = h → (cs.getD i none).isSome →
      (∀ j, j < i → ¬(hs.getD j 0 = h ∧ (cs.getD j none).isSome)) →
      callback_registry.unregScan cs hs h = some i
  | [], hs, h, i, hic, _, _, _, _ => by simp at hic
  | c :: cs, [], h, i, _, hih, _, _, _ => by simp at hih
  | c :: cs, hd :: hs, h, 0, _, _, hh, hc, _ => by
      simp only [List.getD_cons_zero] at hh hc
      simp [callback_registry.unregScan, hh, hc]
  | c :: cs, hd :: hs, h, i + 1, hic, hih, hh, hc, hfirst => by
      simp only [List.getD_cons_succ] at hh hc
      have hnot : ¬(hd = h ∧ c.isSome) := by
        have := hfirst 0 (Nat.succ_pos i)
        simpa using this
      have ih := unregScan_eq_some cs hs h i (Nat.lt_of_succ_lt_succ hic)
        (Nat.lt_of_succ_lt_succ hih) hh hc
        (fun j hj => by
          have := hfirst (j + 1) (Nat.succ_lt_succ hj)
          simpa using this)
      simp [callback_registry.unregScan, hnot, ih]

theorem unregScan_isSome_iff {α β : Type} :
    ∀ (cs : List (Option (α → β))) (hs : List Nat) (h : Nat), h ≠ 0 →
      ((callback_registry.unregScan cs hs h).isSome ↔
        ∃ i, hs.getD i 0 = h ∧ (cs.getD i none).isSome)
  | [], hs, h, hne => by
      simp only [callback_registry.unregScan]
      constructor
      · intro hcontra; simp at hcontra
      · rintro ⟨i, hh, hc⟩
        simp [List.getD] at hc
  | c :: cs, [], h, hne => by
      simp only [callback_registry.unregScan]
      constructor
      · intro hcontra; simp at hcontra
      · rintro ⟨i, hh, hc⟩
        simp [List.getD] at hh
        exact absurd hh.symm hne
  | c :: cs, hd :: hs, h, hne => by
      simp only [callback_registry.unregScan]
      by_cases hmatch : hd = h ∧ c.isSome
      · simp only [if_pos hmatch]
        refine ⟨fun _ => ⟨0, hmatch.1, hmatch.2⟩, fun _ => rfl⟩
      · simp only [if_neg hmatch, Option.isSome_map']
        rw [unregScan_isSome_iff cs hs h hne]
        constructor
        · rintro ⟨i, hh, hc⟩
          exact ⟨i + 1, hh, hc⟩
        · rintro ⟨i, hh, hc⟩
          cases i with
          | zero =>
              simp only [List.getD_cons_zero] at hh hc
              exact absurd ⟨hh, hc⟩ hmatch
          | succ i' =>
              simp only [List.getD_cons_succ] at hh hc
              exact ⟨i', hh, hc⟩

/-! ### Counting empty slots -/

theorem countP_isNone_replicate {γ : Type} :
    ∀ K : Nat, (List.replicate K (none : Option γ)).countP (·.isNone) = K
  | 0 => rfl
  | K + 1 => by
      simp [List.replicate_succ, List.countP_cons, countP_isNone_replicate K]

theorem countP_isNone_set_some {α β : Type} :
    ∀ (cs : List (Option (α → β))) (i : Nat) (cb : α → β),
      i < cs.length → cs.getD i none = none →
      (cs.set i (some cb)).countP (·.isNone) + 1 = cs.countP (·.isNone)
  | [], i, _, h, _ => by simp at h
  | c :: cs, 0, cb, _, hnone => by
      simp only [List.getD_cons_zero] at hnone
      subst hnone
      simp [List.countP_cons]
  | c :: cs, i + 1, cb, h, hnone => by
      simp only [List.getD_cons_succ] at hnone
      have ih := countP_isNone_set_some cs i cb (Nat.lt_of_succ_lt_succ h) hnone
      simp only [List.set_cons_succ, List.countP_cons]
      omega

theorem all_isSome_of_countP_isNone_zero {α β : Type}
    (cs : List (Option (α → β))) (h : cs.countP (·.isNone) = 0) :
    ∀ c ∈ cs, c.isSome := by
  intro c hc
  have := List.countP_eq_zero.mp h c hc
  simpa [Option.isNone_iff_eq_none, Option.isSome_iff_ne_none] using this

theorem findSlot_isSome_of_countP_pos {α β : Type}
    (cs : List (Option (α → β))) (h : 0 < cs.countP (·.isNone)) :
    (callback_registry.findSlot cs).isSome := by
  cases hfs : callback_registry.findSlot cs with
  | some i => rfl
  | none =>
      have hall := (findSlot_eq_none_iff cs).mp hfs
      have : cs.countP (·.isNone) = 0 := by
        apply List.countP_eq_zero.mpr
        intro c hc
        simp [Option.isNone_iff_eq_none,
          Option.isSome_iff_ne_none.mp (hall c hc)]
      omega

/-! ### register_callback / unregister_callback characterisations -/

theorem register_callback_of_findSlot_some {α β : Type}
    (r : callback_registry α β) (cb : α → β) (i : Nat)
    (h : callback_registry.findSlot r.callbacks_ = some i) :
    callback_registry.register_callback r cb =
      (some (r.next_handle_, some i),
       ⟨r.callbacks_.set i (some cb), r.handles_.set i r.next_handle_,
        (r.next_handle_ + 1) % HANDLE_MOD⟩) := by
  have hi := (findSlot_spec _ _ h).1
  simp [callback_registry.register_callback, h,
    callback_registry.get_wrapper_for_index, hi]

theorem register_callback_of_findSlot_none {α β : Type}
    (r : callback_registry α β) (cb : α → β)
    (h : callback_registry.findSlot r.callbacks_ = none) :
    callback_registry.register_callback r cb = (none, r) := by
  simp [callback_registry.register_callback, h]

theorem register_callback_success_elim {α β : Type}
    (r r1 : callback_registry α β) (cb : α → β) (h : Nat) (p : Option Nat)
    (hreg : callback_registry.register_callback r cb = (some (h, p), r1)) :
    ∃ i, callback_registry.findSlot r.callbacks_ = some i ∧
      h = r.next_handle_ ∧ p = some i ∧
      r1 = ⟨r.callbacks_.set i (some cb), r.handles_.set i r.next_handle_,
            (r.next_handle_ + 1) % HANDLE_MOD⟩ := by
  cases hfs : callback_registry.findSlot r.callbacks_ with
  | none =>
      rw [register_callback_of_findSlot_none r cb hfs] at hreg
      simp at hreg
  | some i =>
      rw [register_callback_of_findSlot_some r cb i hfs] at hreg
      rw [Prod.mk.injEq] at hreg
      obtain ⟨h1, h2⟩ := hreg
      rw [Option.some.injEq, Prod.mk.injEq] at h1
      exact ⟨i, rfl, h1.1.symm, h1.2.symm, h2.symm⟩

theorem unregister_callback_zero {α β : Type} (r : callback_registry α β) :
    callback_registry.unregister_callback r 0 = (false, r) := by
  simp [callback_registry.unregister_callback, INVALID_CALLBACK_HANDLE]

theorem unregister_callback_of_scan_some {α β : Type}
    (r : callback_registry α β) (h i : Nat) (hne : h ≠ 0)
    (hscan : callback_registry.unregScan r.callbacks_ r.handles_ h = some i) :
    callback_registry.unregister_callback r h =
      (true, ⟨r.callbacks_.set i none, r.handles_.set i 0,
              r.next_handle_⟩) := by
  simp [callback_registry.unregister_callback, INVALID_CALLBACK_HANDLE, hne,
    hscan]

theorem unregister_callback_of_scan_none {α β : Type}
    (r : callback_registry α β) (h : Nat) (hne : h ≠ 0)
    (hscan : callback_registry.unregScan r.callbacks_ r.handles_ h = none) :
    callback_registry.unregister_callback r h = (false, r) := by
  simp [callback_registry.unregister_callback, INVALID_CALLBACK_HANDLE, hne,
    hscan]

theorem unregister_next_unchanged {α β : Type} (r : callback_registry α β)
    (h : Nat) :
    (callback_registry.unregister_callback r h).2.next_handle_ =
      r.next_handle_ := by
  by_cases hz : h = 0
  · subst hz; rw [unregister_callback_zero]
  · cases hscan : callback_registry.unregScan r.callbacks_ r.handles_ h with
    | none => rw [unregister_callback_of_scan_none r h hz hscan]
    | some i => rw [unregister_callback_of_scan_some r h i hz hscan]

theorem unregister_callback_false_unchanged {α β : Type}
    (r : callback_registry α β) (h : Nat)
    (hres : (callback_registry.unregister_callback r h).1 = false) :
    (callback_registry.unregister_callback r h).2 = r := by
  by_cases hz : h = 0
  · subst hz; rw [unregister_callback_zero]
  · cases hscan : callback_registry.unregScan r.callbacks_ r.handles_ h with
    | none => rw [unregister_callback_of_scan_none r h hz hscan]
    | some i =>
        rw [unregister_callback_of_scan_some r h i hz hscan] at hres
        simp at hres

/-! ### Sequential registration (capacity property) -/

theorem registerSeq_all_success {α β : Type} :
    ∀ (cbs : List (α → β)) (r : callback_registry α β),
      cbs.length ≤ r.callbacks_.countP (·.isNone) →
      ((registerSeq r cbs).1.all Option.isSome = true) ∧
      (registerSeq r cbs).2.callbacks_.countP (·.isNone) + cbs.length =
        r.callbacks_.countP (·.isNone)
  | [], r, _ => by simp [registerSeq]
  | cb :: cbs, r, hlen => by
      simp only [List.length_cons] at hlen
      have hpos : 0 < r.callbacks_.countP (·.isNone) := by omega
      have hfs := findSlot_isSome_of_countP_pos r.callbacks_ hpos
      rw [Option.isSome_iff_exists] at hfs
      obtain ⟨i, hi⟩ := hfs
      obtain ⟨hilt, hinone, _⟩ := findSlot_spec r.callbacks_ i hi
      have hreg := register_callback_of_findSlot_some r cb i hi
      have hcount := countP_isNone_set_some r.callbacks_ i cb hilt hinone
      have ih := registerSeq_all_success cbs
        ⟨r.callbacks_.set i (some cb), r.handles_.set i r.next_handle_,
         (r.next_handle_ + 1) % HANDLE_MOD⟩
        (by
          show cbs.length ≤ (r.callbacks_.set i (some cb)).countP (·.isNone)
          omega)
      obtain ⟨ih1, ih2⟩ := ih
      have ih2' : (registerSeq
          ⟨r.callbacks_.set i (some cb), r.handles_.set i r.next_handle_,
           (r.next_handle_ + 1) % HANDLE_MOD⟩ cbs).2.callbacks_.countP
          (·.isNone) + cbs.length =
          (r.callbacks_.set i (some cb)).countP (·.isNone) := ih2
      simp only [registerSeq, hreg]
      constructor
      · simp [List.all_cons, ih1]
      · simp only [List.length_cons]
        omega

/-! ### Well-formedness: the two member arrays have equal length
(`std::array<lambda_t, MaxCallbacks>` / `std::array<callback_handle_t,
MaxCallbacks>`). -/

/-- Both member arrays have length `MaxCallbacks`. -/
def WF {α β : Type} (r : callback_registry α β) : Prop :=
  r.handles_.length = r.callbacks_.length

theorem WF_init (α β : Type) (K : Nat) : WF (callback_registry.init α β K) := by
  simp [WF, callback_registry.init]

theorem WF_register {α β : Type} (r : callback_registry α β) (cb : α → β)
    (hwf : WF r) : WF ((callback_registry.register_callback r cb).2) := by
  cases hfs : callback_registry.findSlot r.callbacks_ with
  | none => rw [register_callback_of_findSlot_none r cb hfs]; exact hwf
  | some i =>
      rw [register_callback_of_findSlot_some r cb i hfs]
      simpa [WF] using hwf

theorem WF_unregister {α β : Type} (r : callback_registry α β) (h : Nat)
    (hwf : WF r) : WF ((callback_registry.unregister_callback r h).2) := by
  by_cases hz : h = 0
  · subst hz; rw [unregister_callback_zero]; exact hwf
  · cases hscan : callback_registry.unregScan r.callbacks_ r.handles_ h with
    | none => rw [unregister_callback_of_scan_none r h hz hscan]; exact hwf
    | some i =>
        rw [unregister_callback_of_scan_some r h i hz hscan]
        simpa [WF] using hwf

theorem WF_unregAll {α β : Type} (r : callback_registry α β)
    (hwf : WF r) : WF (callback_registry.unregister_all r) := by
  simpa [WF, callback_registry.unregister_all] using hwf

theorem WF_step {α β : Type} (r : callback_registry α β) (op : Op α β)
    (hwf : WF r) : WF (step r op) := by
  cases op with
  | reg cb => exact WF_register r cb hwf
  | unreg h => exact WF_unregister r h hwf
  | unregAll => exact WF_unregAll r hwf

/-! ### Preservation of the per-slot invariant -/

theorem RegInv_init (α β : Type) (K : Nat) :
    RegInv (callback_registry.init α β K) := by
  intro i
  simp only [callback_registry.init, INVALID_CALLBACK_HANDLE]
  constructor
  · intro h; exact absurd (getD_replicate_self K i 0) h
  · intro h; rw [getD_replicate_self] at h; simp at h

theorem RegInv_register {α β : Type} (r : callback_registry α β) (cb : α → β)
    (hwf : WF r) (hnz : r.next_handle_ ≠ 0) (hinv : RegInv r) :
    RegInv ((callback_registry.register_callback r cb).2) := by
  cases hfs : callback_registry.findSlot r.callbacks_ with
  | none => rw [register_callback_of_findSlot_none r cb hfs]; exact hinv
  | some i =>
      rw [register_callback_of_findSlot_some r cb i hfs]
      intro j
      obtain ⟨hilt, _, _⟩ := findSlot_spec r.callbacks_ i hfs
      by_cases hj : j = i
      · subst hj
        rw [getD_set_self _ _ _ _ (hwf ▸ hilt : j < r.handles_.length),
          getD_set_self _ _ _ _ hilt]
        simp [hnz]
      · rw [getD_set_ne _ _ _ _ _ (Ne.symm hj), getD_set_ne _ _ _ _ _ (Ne.symm hj)]
        exact hinv j

theorem RegInv_unregister {α β : Type} (r : callback_registry α β) (h : Nat)
    (hinv : RegInv r) :
    RegInv ((callback_registry.unregister_callback r h).2) := by
  by_cases hz : h = 0
  · subst hz; rw [unregister_callback_zero]; exact hinv
  · cases hscan : callback_registry.unregScan r.callbacks_ r.handles_ h with
    | none => rw [unregister_callback_of_scan_none r h hz hscan]; exact hinv
    | some i =>
        rw [unregister_callback_of_scan_some r h i hz hscan]
        intro j
        obtain ⟨_, _, hic, hih, _⟩ := unregScan_spec r.callbacks_ r.handles_ h i hscan
        by_cases hj : j = i
        · subst hj
          rw [getD_set_self _ _ _ _ hih, getD_set_self _ _ _ _ hic]
          simp
        · rw [getD_set_ne _ _ _ _ _ (Ne.symm hj), getD_set_ne _ _ _ _ _ (Ne.symm hj)]
          exact hinv j

theorem RegInv_unregAll {α β : Type} (r : callback_registry α β) :
    RegInv (callback_registry.unregister_all r) := by
  intro j
  simp only [callback_registry.unregister_all, INVALID_CALLBACK_HANDLE]
  rw [getD_map_const, getD_map_const]
  simp

/-! ### The handle counter along a run -/

theorem handleTrace_eq_nil_of_succCount_zero {α β : Type} :
    ∀ (ops : List (Op α β)) (r : callback_registry α β),
      succCount r ops = 0 → handleTrace r ops = []
  | [], _, _ => rfl
  | op :: rest, r, h => by
      cases op with
      | reg cb =>
          simp only [succCount] at h
          by_cases hs : ((callback_registry.register_callback r cb).1).isSome
          · rw [if_pos hs] at h; omega
          · rw [if_neg hs] at h
            rw [Option.not_isSome_iff_eq_none] at hs
            simp only [handleTrace, hs, List.nil_append]
            exact handleTrace_eq_nil_of_succCount_zero rest _ (by omega)
      | unreg h' =>
          simp only [succCount] at h
          simp only [handleTrace, List.nil_append]
          exact handleTrace_eq_nil_of_succCount_zero rest _ (by omega)
      | unregAll =>
          simp only [succCount] at h
          simp only [handleTrace, List.nil_append]
          exact handleTrace_eq_nil_of_succCount_zero rest _ (by omega)

theorem handleTrace_exec {α β : Type} :
    ∀ (ops : List (Op α β)) (r : callback_registry α β),
      r.next_handle_ + succCount r ops ≤ HANDLE_MOD →
      handleTrace r ops = List.range' r.next_handle_ (succCount r ops)
  | [], r, _ => rfl
  | op :: rest, r, hb => by
      cases op with
      | reg cb =>
          cases hfs : callback_registry.findSlot r.callbacks_ with
          | none =>
              have hreg := register_callback_of_findSlot_none r cb hfs
              simp only [succCount, handleTrace, step, hreg, Option.isSome_none,
                Bool.false_eq_true, if_false, Nat.zero_add, List.nil_append] at *
              exact handleTrace_exec rest r hb
          | some i =>
              have hreg := register_callback_of_findSlot_some r cb i hfs
              simp only [succCount, handleTrace, step, hreg, Option.isSome_some,
                if_true, List.singleton_append] at *
              set r1 : callback_registry α β :=
                ⟨r.callbacks_.set i (some cb), r.handles_.set i r.next_handle_,
                 (r.next_handle_ + 1) % HANDLE_MOD⟩ with hr1
              rcases Nat.lt_or_ge (r.next_handle_ + 1) HANDLE_MOD with hlt | hge
              · have hmod : (r.next_handle_ + 1) % HANDLE_MOD =
                    r.next_handle_ + 1 := Nat.mod_eq_of_lt hlt
                have hnext1 : r1.next_handle_ = r.next_handle_ + 1 := hmod
                have ih := handleTrace_exec rest r1 (by rw [hnext1]; omega)
                rw [ih, hnext1, Nat.add_comm 1 (succCount r1 rest),
                  List.range'_succ]
              · have heq : r.next_handle_ + 1 = HANDLE_MOD := by omega
                have hzero : succCount r1 rest = 0 := by omega
                rw [handleTrace_eq_nil_of_succCount_zero rest r1 hzero, hzero]
                rfl
      | unreg h' =>
          simp only [succCount, handleTrace, step, Nat.zero_add,
            List.nil_append] at *
          rw [← unregister_next_unchanged r h'] at hb ⊢
          exact handleTrace_exec rest _ hb
      | unregAll =>
          simp only [succCount, handleTrace, step, Nat.zero_add,
            List.nil_append] at *
          exact handleTrace_exec rest _ hb

theorem RegInv_exec {α β : Type} :
    ∀ (ops : List (Op α β)) (r : callback_registry α β), WF r →
      r.next_handle_ + succCount r ops ≤ HANDLE_MOD →
      (succCount r ops = 0 ∨ r.next_handle_ ≠ 0) →
      RegInv r → RegInv (exec r ops)
  | [], _, _, _, _, hinv => hinv
  | op :: rest, r, hwf, hb, hnz, hinv => by
      cases op with
      | reg cb =>
          cases hfs : callback_registry.findSlot r.callbacks_ with
          | none =>
              have hreg := register_callback_of_findSlot_none r cb hfs
              simp only [succCount, exec, List.foldl_cons, step, hreg,
                Option.isSome_none, Bool.false_eq_true, if_false,
                Nat.zero_add] at *
              exact RegInv_exec rest r hwf hb hnz hinv
          | some i =>
              have hreg := register_callback_of_findSlot_some r cb i hfs
              have hnz' : r.next_handle_ ≠ 0 := by
                rcases hnz with hz | hz
                · simp only [succCount, hreg, Option.isSome_some, if_true] at hz
                  omega
                · exact hz
              have hinv1 : RegInv ((callback_registry.register_callback r cb).2) :=
                RegInv_register r cb hwf hnz' hinv
              have hwf1 : WF ((callback_registry.register_callback r cb).2) :=
                WF_register r cb hwf
              simp only [succCount, exec, List.foldl_cons, step, hreg,
                Option.isSome_some, if_true] at *
              set r1 : callback_registry α β :=
                ⟨r.callbacks_.set i (some cb), r.handles_.set i r.next_handle_,
                 (r.next_handle_ + 1) % HANDLE_MOD⟩ with hr1
              rcases Nat.lt_or_ge (r.next_handle_ + 1) HANDLE_MOD with hlt | hge
              · have hnext1 : r1.next_handle_ = r.next_handle_ + 1 :=
                  Nat.mod_eq_of_lt hlt
                exact RegInv_exec rest r1 hwf1 (by rw [hnext1]; omega)
                  (Or.inr (by rw [hnext1]; omega)) hinv1
              · have heq : r.next_handle_ + 1 = HANDLE_MOD := by omega
                have hnext1 : r1.next_handle_ = 0 := by
                  show (r.next_handle_ + 1) % HANDLE_MOD = 0
                  rw [heq, Nat.mod_self]
                have hzero : succCount r1 rest = 0 := by omega
                exact RegInv_exec rest r1 hwf1 (by rw [hnext1, hzero]; omega)
                  (Or.inl hzero) hinv1
      | unreg h' =>
          simp only [succCount, exec, List.foldl_cons, step, Nat.zero_add] at *
          have hnext := unregister_next_unchanged r h'
          refine RegInv_exec rest _ (WF_unregister r h' hwf)
            (by rw [hnext]; exact hb) ?_ (RegInv_unregister r h' hinv)
          rcases hnz with hz | hz
          · exact Or.inl hz
          · exact Or.inr (by rw [hnext]; exact hz)
      | unregAll =>
          simp only [succCount, exec, List.foldl_cons, step, Nat.zero_add] at *
          exact RegInv_exec rest _ (WF_unregAll r hwf) hb hnz
            (RegInv_unregAll r)

/-! ### Driving the uint32 handle counter around its range -/

theorem HANDLE_MOD_pos : 0 < HANDLE_MOD := by norm_num [HANDLE_MOD]

theorem HANDLE_MOD_big : 3 ≤ HANDLE_MOD := by norm_num [HANDLE_MOD]

theorem exec_append {α β : Type} (r : callback_registry α β)
    (l1 l2 : List (Op α β)) : exec r (l1 ++ l2) = exec (exec r l1) l2 :=
  List.foldl_append step r l1 l2

/-- A register-then-unregister round restores the table and advances only
the handle counter. -/
theorem pump_round {α β : Type} (r : callback_registry α β) (cb : α → β)
    (j : Nat) (hwf : WF r)
    (hfs : callback_registry.findSlot r.callbacks_ = some j)
    (hh0 : r.handles_.getD j 0 = 0)
    (hnz : r.next_handle_ ≠ 0)
    (hfirst : ∀ j', j' < j →
      ¬(r.handles_.getD j' 0 = r.next_handle_ ∧
        (r.callbacks_.getD j' none).isSome)) :
    exec r [Op.reg cb, Op.unreg r.next_handle_] =
      ⟨r.callbacks_, r.handles_, (r.next_handle_ + 1) % HANDLE_MOD⟩ := by
  obtain ⟨hjlt, hjnone, _⟩ := findSlot_spec r.callbacks_ j hfs
  have hjlt2 : j < r.handles_.length := hwf ▸ hjlt
  have hreg := register_callback_of_findSlot_some r cb j hfs
  have hscan : callback_registry.unregScan
      (r.callbacks_.set j (some cb)) (r.handles_.set j r.next_handle_)
      r.next_handle_ = some j := by
    apply unregScan_eq_some
    · simpa using hjlt
    · simpa using hjlt2
    · rw [getD_set_self _ _ _ _ hjlt2]
    · rw [getD_set_self _ _ _ _ hjlt]; rfl
    · intro j' hj'
      rw [getD_set_ne _ _ _ _ _ (Nat.ne_of_gt hj'),
        getD_set_ne _ _ _ _ _ (Nat.ne_of_gt hj')]
      exact hfirst j' hj'
  have hunreg := unregister_callback_of_scan_some
    ⟨r.callbacks_.set j (some cb), r.handles_.set j r.next_handle_,
     (r.next_handle_ + 1) % HANDLE_MOD⟩ r.next_handle_ j hnz hscan
  show step (step r (Op.reg cb)) (Op.unreg r.next_handle_) = _
  simp only [step, hreg]
  rw [hunreg]
  simp only [List.set_set]
  rw [set_getD_eq_self _ _ _ hjnone, set_getD_eq_self _ _ _ hh0]

/-- The identity closure, used for the concrete wraparound runs. -/
def idF : Nat → Nat := fun x => x

/-- Capacity-1 registry: `k ≤ 2^32 - 1` pump rounds leave the table empty
and set `next_handle_` to `(1 + k) % 2^32`. -/
theorem pump1_exec {α β : Type} (cb : α → β) :
    ∀ k, k ≤ HANDLE_MOD - 1 →
      exec (callback_registry.init α β 1) (pumpOps cb 1 k) =
        ⟨[none], [0], (1 + k) % HANDLE_MOD⟩
  | 0, _ => by
      have h1 : (1 + 0) % HANDLE_MOD = 1 :=
        Nat.mod_eq_of_lt (by norm_num [HANDLE_MOD])
      show callback_registry.init α β 1 = _
      rw [h1]
      rfl
  | k + 1, hk => by
      have hmodpos := HANDLE_MOD_pos
      have ih := pump1_exec cb k (by omega)
      rw [pumpOps, exec_append, ih]
      have hlt : 1 + k < HANDLE_MOD := by omega
      have hmod : (1 + k) % HANDLE_MOD = 1 + k := Nat.mod_eq_of_lt hlt
      rw [hmod]
      have hr := pump_round (⟨[none], [0], 1 + k⟩ : callback_registry α β)
        cb 0 (by simp [WF]) rfl rfl (by show 1 + k ≠ 0; omega)
        (fun j' hj' => absurd hj' (Nat.not_lt_zero j'))
      have harith : 1 + k + 1 = 1 + (k + 1) := by omega
      rw [show (Op.unreg (1 + k) : Op α β) =
          Op.unreg (⟨[none], [0], 1 + k⟩ :
            callback_registry α β).next_handle_ from rfl]
      rw [hr, harith]

/-- Capacity-3 registry with `idF` pinned in slot 0 under handle 1:
`k ≤ 2^32 - 2` pump rounds on slot 1 leave the table unchanged and set
`next_handle_` to `(2 + k) % 2^32`. -/
theorem pump3_exec (f cb : Nat → Nat) :
    ∀ k, k ≤ HANDLE_MOD - 2 →
      exec (⟨[some f, none, none], [1, 0, 0], 2⟩ : callback_registry Nat Nat)
        (pumpOps cb 2 k) =
        ⟨[some f, none, none], [1, 0, 0], (2 + k) % HANDLE_MOD⟩
  | 0, _ => by
      have h1 : (2 + 0) % HANDLE_MOD = 2 :=
        Nat.mod_eq_of_lt (by norm_num [HANDLE_MOD])
      show (⟨[some f, none, none], [1, 0, 0], 2⟩ :
        callback_registry Nat Nat) = _
      rw [h1]
  | k + 1, hk => by
      have hmodbig := HANDLE_MOD_big
      have ih := pump3_exec f cb k (by omega)
      rw [pumpOps, exec_append, ih]
      have hlt : 2 + k < HANDLE_MOD := by omega
      have hmod : (2 + k) % HANDLE_MOD = 2 + k := Nat.mod_eq_of_lt hlt
      rw [hmod]
      have hr := pump_round
        (⟨[some f, none, none], [1, 0, 0], 2 + k⟩ : callback_registry Nat Nat)
        cb 1 (by simp [WF]) rfl rfl (by show 2 + k ≠ 0; omega)
        (fun j' hj' => by
          interval_cases j'
          simp only [List.getD_cons_zero]
          intro hcontra
          omega)
      have harith : 2 + k + 1 = 2 + (k + 1) := by omega
      rw [show (Op.unreg (2 + k) : Op Nat Nat) =
          Op.unreg (⟨[some f, none, none], [1, 0, 0], 2 + k⟩ :
            callback_registry Nat Nat).next_handle_ from rfl]
      rw [hr, harith]

/-- Capacity-1 registry after `2^32 - 1` successful registrations (each
immediately unregistered): the table is empty again and `next_handle_`
has wrapped to `0`. -/
def wrappedReg1 : callback_registry Nat Nat :=
  exec (callback_registry.init Nat Nat 1) (pumpOps idF 1 (HANDLE_MOD - 1))

theorem wrappedReg1_eq : wrappedReg1 = ⟨[none], [0], 0⟩ := by
  rw [wrappedReg1, pump1_exec idF (HANDLE_MOD - 1) (le_refl _)]
  have hpos := HANDLE_MOD_pos
  have h1 : 1 + (HANDLE_MOD - 1) = HANDLE_MOD := by omega
  rw [h1, Nat.mod_self]

/-- Capacity-3 registry reaching duplicate live handles: slot 0 keeps
handle 1; slot 1 is pumped `2^32 - 2` times so that `next_handle_` wraps
to 0; one more registration parks handle 0 in slot 1 (which can never be
unregistered); the final registration hands out handle 1 a second time. -/
def dupBase : callback_registry Nat Nat :=
  exec (callback_registry.init Nat Nat 3)
    ([Op.reg idF] ++ (pumpOps idF 2 (HANDLE_MOD - 2) ++ [Op.reg idF]))

theorem dupBase_eq : dupBase = ⟨[some idF, some idF, none], [1, 0, 0], 1⟩ := by
  rw [dupBase, exec_append, exec_append]
  have h1 : exec (callback_registry.init Nat Nat 3) [Op.reg idF] =
      ⟨[some idF, none, none], [1, 0, 0], 2⟩ := rfl
  rw [h1, pump3_exec idF idF (HANDLE_MOD - 2) (le_refl _)]
  have hbig := HANDLE_MOD_big
  have h2 : 2 + (HANDLE_MOD - 2) = HANDLE_MOD := by omega
  rw [h2, Nat.mod_self]
  rfl

/-- The registry of `dupBase` after registering one more closure: slots 0
and 2 both live under handle 1. -/
def dupState : callback_registry Nat Nat :=
  ⟨[some idF, some idF, some (fun _ => 7)], [1, 0, 1], 2⟩

theorem dupState_reach :
    (callback_registry.register_callback dupBase (fun _ => 7)).2 = dupState := by
  rw [dupBase_eq]
  rfl

/-! ### Claim theorems -/

/-- Claim C1: after a successful `register_callback(f)` returning
`(handle, trampoline)`, invoking the returned trampoline (the wrapper for
the assigned slot) with any argument yields the same result as calling
`f` directly, provided `f` is still stored at that slot at invocation
time; moreover the slot does hold `f` right after registration. -/
theorem C1_round_trip_dispatch {α β : Type} [Inhabited β]
    (r r1 : callback_registry α β) (f : α → β) (h : Nat) (p : Option Nat)
    (hreg : callback_registry.register_callback r f = (some (h, p), r1))
    (i : Nat) (hp : p = some i)
    (st : callback_registry α β)
    (hst : st.callbacks_.getD i none = some f) (a : α) :
    callback_registry.wrapper_function st i a = (some f, f a) ∧
    r1.callbacks_.getD i none = some f := by
  constructor
  · simp only [callback_registry.wrapper_function, hst]
  · obtain ⟨i2, hfs, _, hp2, hr1⟩ :=
      register_callback_success_elim r r1 f h p hreg
    rw [hp2, Option.some.injEq] at hp
    subst hp
    obtain ⟨hlt, _, _⟩ := findSlot_spec r.callbacks_ i2 hfs
    rw [hr1]
    exact getD_set_self _ _ _ _ hlt

/-- Witness for C1 at a concrete registration. -/
theorem C1_witness :
    callback_registry.wrapper_function
        (⟨[some (fun x => x + 1)], [1], 2⟩ : callback_registry Nat Nat) 0 5 =
      (some (fun x => x + 1), 6) ∧
    ((⟨[some (fun x => x + 1)], [1], 2⟩ :
        callback_registry Nat Nat)).callbacks_.getD 0 none =
      some (fun x => x + 1) :=
  C1_round_trip_dispatch (callback_registry.init Nat Nat 1)
    ⟨[some (fun x => x + 1)], [1], 2⟩ (fun x => x + 1) 1 (some 0) rfl 0 rfl
    ⟨[some (fun x => x + 1)], [1], 2⟩ rfl 5

/-- Claim C2: starting from the empty registry of capacity `K`, the first
`K` registrations all succeed, and the `(K+1)`-th returns `nullopt`
leaving the registry state (slots, handles and `next_handle_`) completely
unchanged. -/
theorem C2_capacity {α β : Type} (K : Nat) (cbs : List (α → β))
    (hlen : cbs.length = K) (cb : α → β) :
    ((registerSeq (callback_registry.init α β K) cbs).1.all
        Option.isSome = true) ∧
    callback_registry.register_callback
        (registerSeq (callback_registry.init α β K) cbs).2 cb =
      (none, (registerSeq (callback_registry.init α β K) cbs).2) := by
  have hcount : (callback_registry.init α β K).callbacks_.countP
      (·.isNone) = K := by
    show (List.replicate K (none : Option (α → β))).countP (·.isNone) = K
    exact countP_isNone_replicate K
  obtain ⟨h1, h2⟩ := registerSeq_all_success cbs (callback_registry.init α β K)
    (by rw [hcount, hlen])
  refine ⟨h1, ?_⟩
  have hzero : (registerSeq (callback_registry.init α β K)
      cbs).2.callbacks_.countP (·.isNone) = 0 := by omega
  have hfs : callback_registry.findSlot
      (registerSeq (callback_registry.init α β K) cbs).2.callbacks_ = none := by
    rw [findSlot_eq_none_iff]
    exact all_isSome_of_countP_isNone_zero _ hzero
  exact register_callback_of_findSlot_none _ cb hfs

/-- Witness for C2 with capacity 2. -/
theorem C2_witness :
    ((registerSeq (callback_registry.init Nat Nat 2)
        [fun x => x + 1, fun x => x * 2]).1.all Option.isSome = true) ∧
    callback_registry.register_callback
        (registerSeq (callback_registry.init Nat Nat 2)
          [fun x => x + 1, fun x => x * 2]).2 (fun x => x) =
      (none, (registerSeq (callback_registry.init Nat Nat 2)
          [fun x => x + 1, fun x => x * 2]).2) :=
  C2_capacity 2 [fun x => x + 1, fun x => x * 2] rfl (fun x => x)

/-- Claim C3 (amended): after `unregister_callback(h)` returns true having
cleared slot `i` — the unique slot holding `h` as long as handle values
are unduplicated, which is guaranteed while fewer than `2^32` successful
registrations have occurred — invoking the trampoline of slot `i` (the one
returned together with `h`, absent duplication) returns the
value-initialised default and invokes no closure. -/
theorem C3_post_unregister_silence {α β : Type} [Inhabited β]
    (r : callback_registry α β) (h i : Nat) (hne : h ≠ 0)
    (hscan : callback_registry.unregScan r.callbacks_ r.handles_ h = some i)
    (a : α) :
    (callback_registry.unregister_callback r h).1 = true ∧
    callback_registry.wrapper_function
        (callback_registry.unregister_callback r h).2 i a =
      (none, default) := by
  have hu := unregister_callback_of_scan_some r h i hne hscan
  obtain ⟨_, _, hic, _, _⟩ := unregScan_spec r.callbacks_ r.handles_ h i hscan
  rw [hu]
  refine ⟨rfl, ?_⟩
  show callback_registry.wrapper_function
    ⟨r.callbacks_.set i none, r.handles_.set i 0, r.next_handle_⟩ i a = _
  simp only [callback_registry.wrapper_function, getD_set_self _ _ _ _ hic]

/-- Witness for C3 (amended) at a concrete state. -/
theorem C3_witness :
    (callback_registry.unregister_callback
        (⟨[some (fun x => x + 1)], [1], 2⟩ : callback_registry Nat Nat)
        1).1 = true ∧
    callback_registry.wrapper_function
        (callback_registry.unregister_callback
          (⟨[some (fun x => x + 1)], [1], 2⟩ : callback_registry Nat Nat)
          1).2 0 5 =
      (none, default) :=
  C3_post_unregister_silence
    (⟨[some (fun x => x + 1)], [1], 2⟩ : callback_registry Nat Nat)
    1 0 (by decide) rfl 5

/-- Counterexample for C3 as stated: in the reachable duplicate-handle
state `dupState` (after `2^32` successful registrations), registering the
last closure returned handle 1 together with the trampoline of slot 2;
`unregister_callback 1` returns true (it clears slot 0), yet invoking the
slot-2 trampoline still calls the original closure and returns 7, not the
default 0. -/
theorem C3_counterexample :
    (callback_registry.register_callback dupBase (fun _ => 7)).1 =
      some (1, some 2) ∧
    (callback_registry.unregister_callback dupState 1).1 = true ∧
    (callback_registry.wrapper_function
        (callback_registry.unregister_callback dupState 1).2 2 0).1 ≠ none ∧
    (callback_registry.wrapper_function
        (callback_registry.unregister_callback dupState 1).2 2 0).2 ≠
      (default : Nat) := by
  rw [dupBase_eq]
  refine ⟨rfl, rfl, ?_, ?_⟩
  · show (some (fun _ : Nat => (7 : Nat)) : Option (Nat → Nat)) ≠ none
    simp
  · show (7 : Nat) ≠ 0
    decide

/-- Claim C4: along any operation sequence from the empty registry with at
most `2^32 - 1` successful registrations (the spec's no-overflow bound),
all returned handles are pairwise distinct and non-zero. -/
theorem C4_handle_uniqueness {α β : Type} (K : Nat) (ops : List (Op α β))
    (hbound : succCount (callback_registry.init α β K) ops ≤
      HANDLE_MOD - 1) :
    (handleTrace (callback_registry.init α β K) ops).Nodup ∧
    0 ∉ handleTrace (callback_registry.init α β K) ops := by
  have hpos := HANDLE_MOD_pos
  have h1 : (callback_registry.init α β K).next_handle_ = 1 := rfl
  have ht := handleTrace_exec ops (callback_registry.init α β K)
    (by rw [h1]; omega)
  rw [ht, h1]
  constructor
  · exact List.nodup_range' 1 _ 1 Nat.one_pos
  · intro hmem
    rw [List.mem_range'_1] at hmem
    omega

/-- Witness for C4 on a concrete operation sequence. -/
theorem C4_witness :
    (handleTrace (callback_registry.init Nat Nat 2)
        [Op.reg (fun x => x + 1), Op.reg (fun x => x * 2), Op.unreg 1,
         Op.reg (fun x => x)]).Nodup ∧
    0 ∉ handleTrace (callback_registry.init Nat Nat 2)
        [Op.reg (fun x => x + 1), Op.reg (fun x => x * 2), Op.unreg 1,
         Op.reg (fun x => x)] :=
  C4_handle_uniqueness 2
    [Op.reg (fun x => x + 1), Op.reg (fun x => x * 2), Op.unreg 1,
     Op.reg (fun x => x)] (by decide)

/-- Claim C5 (amended): `unregister_callback 0` returns false at once
without touching the state; for `h ≠ 0` the call returns true exactly when
some slot holds `h` together with a closure; on success exactly the found
slot is cleared and every other slot is untouched; and — provided no
other slot also holds `h`, which is guaranteed while fewer than `2^32`
successful registrations have occurred — a second call with the same `h`
returns false and changes nothing. -/
theorem C5_unregister_semantics {α β : Type} (r : callback_registry α β)
    (h : Nat) :
    (callback_registry.unregister_callback r 0 = (false, r)) ∧
    (h ≠ 0 →
      (((callback_registry.unregister_callback r h).1 = true) ↔
        ∃ i, r.handles_.getD i 0 = h ∧ (r.callbacks_.getD i none).isSome)) ∧
    (∀ i, h ≠ 0 →
      callback_registry.unregScan r.callbacks_ r.handles_ h = some i →
      (callback_registry.unregister_callback r h =
        (true, ⟨r.callbacks_.set i none, r.handles_.set i 0,
                r.next_handle_⟩) ∧
       (∀ j, j ≠ i →
         ((callback_registry.unregister_callback r h).2.handles_.getD j 0 =
            r.handles_.getD j 0 ∧
          (callback_registry.unregister_callback
              r h).2.callbacks_.getD j none = r.callbacks_.getD j none)) ∧
       ((∀ j, j ≠ i → ¬(r.handles_.getD j 0 = h ∧
            (r.callbacks_.getD j none).isSome)) →
         callback_registry.unregister_callback
             (callback_registry.unregister_callback r h).2 h =
           (false, (callback_registry.unregister_callback r h).2)))) := by
  refine ⟨unregister_callback_zero r, ?_, ?_⟩
  · intro hne
    constructor
    · intro htrue
      rw [← unregScan_isSome_iff r.callbacks_ r.handles_ h hne]
      cases hscan : callback_registry.unregScan r.callbacks_ r.handles_ h with
      | none =>
          rw [unregister_callback_of_scan_none r h hne hscan] at htrue
          simp at htrue
      | some i => rfl
    · intro hex
      have hsome := (unregScan_isSome_iff r.callbacks_ r.handles_ h hne).mpr hex
      rw [Option.isSome_iff_exists] at hsome
      obtain ⟨i, hscan⟩ := hsome
      rw [unregister_callback_of_scan_some r h i hne hscan]
  · intro i hne hscan
    have hu := unregister_callback_of_scan_some r h i hne hscan
    obtain ⟨hh, hc, hic, hih, hfirst⟩ :=
      unregScan_spec r.callbacks_ r.handles_ h i hscan
    refine ⟨hu, ?_, ?_⟩
    · intro j hj
      rw [hu]
      exact ⟨getD_set_ne _ _ _ _ _ (Ne.symm hj),
        getD_set_ne _ _ _ _ _ (Ne.symm hj)⟩
    · intro huniq
      rw [hu]
      have hnone : callback_registry.unregScan (r.callbacks_.set i none)
          (r.handles_.set i 0) h = none := by
        cases hscan2 : callback_registry.unregScan (r.callbacks_.set i none)
            (r.handles_.set i 0) h with
        | none => rfl
        | some i2 =>
            obtain ⟨hh2, hc2, _, _, _⟩ :=
              unregScan_spec _ _ _ _ hscan2
            by_cases hij : i2 = i
            · subst hij
              rw [getD_set_self _ _ _ _ hih] at hh2
              exact absurd hh2.symm hne
            · rw [getD_set_ne _ _ _ _ _ (Ne.symm hij)] at hh2
              rw [getD_set_ne _ _ _ _ _ (Ne.symm hij)] at hc2
              exact absurd ⟨hh2, hc2⟩ (huniq i2 hij)
      exact unregister_callback_of_scan_none _ h hne hnone

/-- Witness for C5 (amended): a successful unregistration followed by a
second call with the same handle, which fails and changes nothing. -/
theorem C5_witness :
    callback_registry.unregister_callback
        (callback_registry.unregister_callback
          (⟨[some (fun x => x + 1), some (fun x => x * 2)], [1, 2], 3⟩ :
            callback_registry Nat Nat) 1).2 1 =
      (false, (callback_registry.unregister_callback
          (⟨[some (fun x => x + 1), some (fun x => x * 2)], [1, 2], 3⟩ :
            callback_registry Nat Nat) 1).2) :=
  ((C5_unregister_semantics
      (⟨[some (fun x => x + 1), some (fun x => x * 2)], [1, 2], 3⟩ :
        callback_registry Nat Nat) 1).2.2 0 (by decide) rfl).2.2
    (by
      intro j hj hcontra
      match j with
      | 0 => exact hj rfl
      | 1 => simp [List.getD] at hcontra
      | j + 2 => simp [List.getD] at hcontra)

/-- Counterexample for C5 as stated: in the reachable duplicate-handle
state `dupState` (slots 0 and 2 both hold handle 1 after `2^32`
successful registrations), the first `unregister_callback 1` returns
true, and a second call with the same handle returns true again instead
of false. -/
theorem C5_counterexample :
    (callback_registry.register_callback dupBase (fun _ => 7)).2 =
      dupState ∧
    (callback_registry.unregister_callback dupState 1).1 = true ∧
    (callback_registry.unregister_callback
        (callback_registry.unregister_callback dupState 1).2 1).1 = true :=
  ⟨dupState_reach, rfl, rfl⟩

/-- Claim C6 (amended): along any operation sequence from the empty
registry with at most `2^32 - 1` successful registrations (so that the
`uint32` handle counter never hands out the INVALID value 0), every
reachable state satisfies the per-slot invariant `handles_[i] != INVALID`
iff `slots[i]` holds a closure. -/
theorem C6_slot_invariant_bounded {α β : Type} (K : Nat)
    (ops : List (Op α β))
    (hbound : succCount (callback_registry.init α β K) ops ≤
      HANDLE_MOD - 1) :
    RegInv (exec (callback_registry.init α β K) ops) := by
  have hpos := HANDLE_MOD_pos
  have h1 : (callback_registry.init α β K).next_handle_ = 1 := rfl
  exact RegInv_exec ops _ (WF_init α β K) (by rw [h1]; omega)
    (Or.inr (by rw [h1]; omega)) (RegInv_init α β K)

/-- Witness for C6 (amended) on a concrete run. -/
theorem C6_witness :
    RegInv (exec (callback_registry.init Nat Nat 1) [Op.reg (fun x => x)]) :=
  C6_slot_invariant_bounded 1 [Op.reg (fun x => x)] (by decide)

/-- Counterexample for C6 as stated: after `2^32 - 1` successful
registrations the handle counter has wrapped to 0, and one more
registration stores a closure under handle 0 — a reachable state in which
`handles_[0] = INVALID` while `slots[0]` holds a closure. -/
theorem C6_counterexample :
    ¬ RegInv (exec (callback_registry.init Nat Nat 1)
        (pumpOps idF 1 (HANDLE_MOD - 1) ++ [Op.reg idF])) := by
  rw [exec_append]
  rw [show exec (callback_registry.init Nat Nat 1)
      (pumpOps idF 1 (HANDLE_MOD - 1)) = wrappedReg1 from rfl]
  rw [wrappedReg1_eq]
  intro hinv
  have h0 := hinv 0
  rw [show exec (⟨[none], [0], 0⟩ : callback_registry Nat Nat)
      [Op.reg idF] = ⟨[some idF], [0], 1⟩ from rfl] at h0
  simp [List.getD_cons_zero] at h0

/-- Claim C7: `register_callback` always assigns the lowest-indexed empty
slot, and in the capacity-2 scenario handles 1 and 2 are assigned, the
third registration fails as full, `unregister 1` frees slot 0, the next
registration reuses slot 0 under the fresh handle 3, and slot 1 still
dispatches to the second closure. -/
theorem C7_first_fit_and_scenario :
    (∀ (α β : Type) (r : callback_registry α β) (cb : α → β) (i : Nat),
      callback_registry.findSlot r.callbacks_ = some i →
      (r.callbacks_.getD i none = none ∧
       (∀ j, j < i → (r.callbacks_.getD j none).isSome) ∧
       callback_registry.register_callback r cb =
         (some (r.next_handle_, some i),
          ⟨r.callbacks_.set i (some cb), r.handles_.set i r.next_handle_,
           (r.next_handle_ + 1) % HANDLE_MOD⟩))) ∧
    (callback_registry.register_callback (callback_registry.init Nat Nat 2)
        (fun x => x + 1) =
      (some (1, some 0), ⟨[some (fun x => x + 1), none], [1, 0], 2⟩) ∧
     callback_registry.register_callback
        (⟨[some (fun x => x + 1), none], [1, 0], 2⟩ :
          callback_registry Nat Nat) (fun x => x * 2) =
      (some (2, some 1),
       ⟨[some (fun x => x + 1), some (fun x => x * 2)], [1, 2], 3⟩) ∧
     callback_registry.wrapper_function
        (⟨[some (fun x => x + 1), some (fun x => x * 2)], [1, 2], 3⟩ :
          callback_registry Nat Nat) 0 5 = (some (fun x => x + 1), 6) ∧
     (callback_registry.register_callback
        (⟨[some (fun x => x + 1), some (fun x => x * 2)], [1, 2], 3⟩ :
          callback_registry Nat Nat) (fun x => x - 1)).1 = none ∧
     callback_registry.unregister_callback
        (⟨[some (fun x => x + 1), some (fun x => x * 2)], [1, 2], 3⟩ :
          callback_registry Nat Nat) 1 =
      (true, ⟨[none, some (fun x => x * 2)], [0, 2], 3⟩) ∧
     callback_registry.register_callback
        (⟨[none, some (fun x => x * 2)], [0, 2], 3⟩ :
          callback_registry Nat Nat) (fun x => x - 1) =
      (some (3, some 0),
       ⟨[some (fun x => x - 1), some (fun x => x * 2)], [3, 2], 4⟩) ∧
     callback_registry.wrapper_function
        (⟨[some (fun x => x - 1), some (fun x => x * 2)], [3, 2], 4⟩ :
          callback_registry Nat Nat) 1 10 = (some (fun x => x * 2), 20)) := by
  constructor
  · intro α β r cb i hfs
    obtain ⟨_, h2, h3⟩ := findSlot_spec r.callbacks_ i hfs
    exact ⟨h2, h3, register_callback_of_findSlot_some r cb i hfs⟩
  · exact ⟨rfl, rfl, rfl, rfl, rfl, rfl, rfl⟩

/-- Witness for C7 at a concrete first-fit registration. -/
theorem C7_witness :
    callback_registry.register_callback (callback_registry.init Nat Nat 2)
        (fun x => x + 7) =
      (some ((callback_registry.init Nat Nat 2).next_handle_, some 0),
       ⟨(callback_registry.init Nat Nat 2).callbacks_.set 0
          (some (fun x => x + 7)),
        (callback_registry.init Nat Nat 2).handles_.set 0
          (callback_registry.init Nat Nat 2).next_handle_,
        ((callback_registry.init Nat Nat 2).next_handle_ + 1) %
          HANDLE_MOD⟩) :=
  (C7_first_fit_and_scenario.1 Nat Nat (callback_registry.init Nat Nat 2)
    (fun x => x + 7) 0 rfl).2.2

/-- Claim C8 (amended): for every scoped_callback whose construction
registered successfully with a non-zero handle (guaranteed while fewer
than `2^32` successful registrations have occurred), the lifetime performs
exactly one unregistration of its handle on every exit path: destruction
is `reset()`; a first `reset()` on a valid object calls
`unregister_callback` exactly once (on its handle) and a second
reset/destruction performs none; move construction transfers the pair and
the moved-from object's destruction performs none; `release()` returns the
pointer, forgets the handle, and the subsequent destruction performs
none; move assignment resets the target and transfers from the source. -/
theorem C8_scoped_lifetime {α β : Type} (s : scoped_callback)
    (r : callback_registry α β) :
    (scoped_callback.dtor s r = scoped_callback.reset s r) ∧
    (s.handle_ ≠ 0 →
      ((scoped_callback.reset s r).2.2 = 1 ∧
       (scoped_callback.reset s r).2.1 =
         (callback_registry.unregister_callback r s.handle_).2 ∧
       ∀ r2 : callback_registry α β,
         (scoped_callback.dtor (scoped_callback.reset s r).1 r2).2.2 = 0)) ∧
    (scoped_callback.move s =
        (⟨s.handle_, s.callback_⟩, ⟨INVALID_CALLBACK_HANDLE, none⟩) ∧
     ∀ r2 : callback_registry α β,
       (scoped_callback.dtor (scoped_callback.move s).2 r2).2.2 = 0) ∧
    (scoped_callback.release s =
        (s.callback_, ⟨INVALID_CALLBACK_HANDLE, none⟩) ∧
     ∀ r2 : callback_registry α β,
       (scoped_callback.dtor (scoped_callback.release s).2 r2).2.2 = 0) ∧
    (∀ dst : scoped_callback,
      scoped_callback.move_assign dst s r =
        (⟨s.handle_, s.callback_⟩, ⟨INVALID_CALLBACK_HANDLE, none⟩,
         (scoped_callback.reset dst r).2.1,
         (scoped_callback.reset dst r).2.2)) := by
  refine ⟨rfl, ?_, ⟨rfl, fun r2 => rfl⟩, ⟨rfl, fun r2 => rfl⟩, ?_⟩
  · intro hne
    have hne' : s.handle_ ≠ INVALID_CALLBACK_HANDLE := hne
    have hr : scoped_callback.reset s r =
        (⟨INVALID_CALLBACK_HANDLE, none⟩,
         (callback_registry.unregister_callback r s.handle_).2, 1) := by
      simp only [scoped_callback.reset, if_pos hne']
    refine ⟨by rw [hr], by rw [hr], ?_⟩
    intro r2
    rw [hr]
    rfl
  · intro dst
    rcases h : scoped_callback.reset dst r with ⟨a, b, c⟩
    simp only [scoped_callback.move_assign, h]

/-- Witness for C8 (amended) on a concrete valid scoped callback. -/
theorem C8_witness :
    (scoped_callback.reset (⟨1, some 0⟩ : scoped_callback)
        (⟨[some idF], [1], 2⟩ : callback_registry Nat Nat)).2.2 = 1 :=
  ((C8_scoped_lifetime ⟨1, some 0⟩
      (⟨[some idF], [1], 2⟩ : callback_registry Nat Nat)).2.1
    (by decide)).1

/-- Counterexample for C8 as stated: on the reachable wrapped registry
(counter at 0 after `2^32 - 1` successful registrations) construction
registers successfully but receives handle 0, and destruction then
performs zero unregistrations instead of exactly one. -/
theorem C8_counterexample :
    ((callback_registry.register_callback wrappedReg1 idF).1).isSome = true ∧
    (scoped_callback.dtor (scoped_callback.construct wrappedReg1 idF).1
        (scoped_callback.construct wrappedReg1 idF).2).2.2 = 0 := by
  rw [wrappedReg1_eq]
  exact ⟨rfl, rfl⟩

/-- Claim C9: the trampoline pointer is a per-slot identity: when a later
registration reuses slot `i` for a different closure `g`, the trampoline
obtained from the earlier registration of `f` is the same pointer as the
one returned for `g`, and invoking it dispatches to `g`. -/
theorem C9_per_slot_trampoline {α β : Type} [Inhabited β]
    (r r1 r2 st st1 : callback_registry α β) (f g : α → β)
    (h1 h2 : Nat) (p1 p2 : Option Nat) (i : Nat)
    (hreg1 : callback_registry.register_callback r f = (some (h1, p1), r1))
    (hp1 : p1 = some i)
    (hun : callback_registry.unregister_callback r1 h1 = (true, r2))
    (hreg2 : callback_registry.register_callback st g = (some (h2, p2), st1))
    (hfs2 : callback_registry.findSlot st.callbacks_ = some i)
    (a : α) :
    p2 = p1 ∧
    callback_registry.wrapper_function st1 i a = (some g, g a) := by
  obtain ⟨i2, hfs2', hh2, hp2', hst1⟩ :=
    register_callback_success_elim st st1 g h2 p2 hreg2
  rw [hfs2'] at hfs2
  injection hfs2 with hi
  subst hi
  obtain ⟨hlt, _, _⟩ := findSlot_spec st.callbacks_ i2 hfs2'
  refine ⟨by rw [hp2', hp1], ?_⟩
  rw [hst1]
  show callback_registry.wrapper_function
    ⟨st.callbacks_.set i2 (some g), st.handles_.set i2 st.next_handle_,
     (st.next_handle_ + 1) % HANDLE_MOD⟩ i2 a = _
  simp only [callback_registry.wrapper_function,
    getD_set_self _ _ _ _ hlt]

/-- Witness for C9 on a concrete slot reuse. -/
theorem C9_witness :
    (some 0 : Option Nat) = some 0 ∧
    callback_registry.wrapper_function
        (⟨[some (fun x => x * 2)], [2], 3⟩ : callback_registry Nat Nat)
        0 10 = (some (fun x => x * 2), 20) :=
  C9_per_slot_trampoline (callback_registry.init Nat Nat 1)
    ⟨[some (fun x => x + 1)], [1], 2⟩ ⟨[none], [0], 2⟩ ⟨[none], [0], 2⟩
    ⟨[some (fun x => x * 2)], [2], 3⟩ (fun x => x + 1) (fun x => x * 2)
    1 2 (some 0) (some 0) 0 rfl rfl rfl rfl rfl 10

/-- Claim C10 (amended): provided a successful registration returns a
non-zero handle (guaranteed while fewer than `2^32` successful
registrations have occurred), every scoped_callback maintains, after
construction and after every reset, release, move construction and move
assignment, the invariant that its stored handle is the INVALID sentinel
iff its stored trampoline pointer is null; `is_valid`/`operator bool`
(which test only the pointer) then agree with handle validity, and a
failed construction (registry full) yields the null pointer, the INVALID
handle and boolean false. -/
theorem C10_scoped_invariant {α β : Type} (r : callback_registry α β)
    (cb : α → β) (s : scoped_callback) :
    ((∀ h p, (callback_registry.register_callback r cb).1 = some (h, p) →
        h ≠ 0) →
      SCInv (scoped_callback.construct r cb).1) ∧
    ((callback_registry.register_callback r cb).1 = none →
      (scoped_callback.construct r cb).1 = ⟨INVALID_CALLBACK_HANDLE, none⟩ ∧
      scoped_callback.is_valid (scoped_callback.construct r cb).1 = false) ∧
    (SCInv s → SCInv (scoped_callback.reset s r).1) ∧
    SCInv ((scoped_callback.release s).2) ∧
    (SCInv s → SCInv (scoped_callback.move s).1) ∧
    SCInv ((scoped_callback.move s).2) ∧
    (SCInv s → ∀ dst : scoped_callback,
      SCInv (scoped_callback.move_assign dst s r).1) ∧
    (∀ dst : scoped_callback,
      SCInv (scoped_callback.move_assign dst s r).2.1) ∧
    (SCInv s → (scoped_callback.is_valid s = true ↔ s.handle_ ≠ 0)) := by
  refine ⟨?_, ?_, ?_, ⟨fun _ => rfl, fun _ => rfl⟩, ?_,
    ⟨fun _ => rfl, fun _ => rfl⟩, ?_, ?_, ?_⟩
  · intro hnz
    rcases hres : callback_registry.register_callback r cb with ⟨fst, snd⟩
    cases fst with
    | none =>
        simp only [scoped_callback.construct, hres]
        exact ⟨fun _ => rfl, fun _ => rfl⟩
    | some hp =>
        rcases hp with ⟨h, p⟩
        have hne := hnz h p (by rw [hres])
        obtain ⟨i, _, _, hp2, _⟩ :=
          register_callback_success_elim r snd cb h p hres
        simp only [scoped_callback.construct, hres]
        constructor
        · intro h0; exact absurd h0 hne
        · intro hpn; rw [hp2] at hpn; simp at hpn
  · intro hnone
    rcases hres : callback_registry.register_callback r cb with ⟨fst, snd⟩
    rw [hres] at hnone
    simp only at hnone
    subst hnone
    simp [scoped_callback.construct, hres, scoped_callback.is_valid]
  · intro hs
    by_cases hd : s.handle_ = INVALID_CALLBACK_HANDLE
    · have hr : scoped_callback.reset s r = (s, r, 0) := by
        simp [scoped_callback.reset, hd]
      rw [hr]; exact hs
    · have hr : scoped_callback.reset s r =
          (⟨INVALID_CALLBACK_HANDLE, none⟩,
           (callback_registry.unregister_callback r s.handle_).2, 1) := by
        simp only [scoped_callback.reset, if_pos hd]
      rw [hr]; exact ⟨fun _ => rfl, fun _ => rfl⟩
  · intro hs; exact hs
  · intro hs dst
    rcases hh : scoped_callback.reset dst r with ⟨a, b, c⟩
    simp only [scoped_callback.move_assign, hh]
    exact hs
  · intro dst
    rcases hh : scoped_callback.reset dst r with ⟨a, b, c⟩
    simp only [scoped_callback.move_assign, hh]
    exact ⟨fun _ => rfl, fun _ => rfl⟩
  · intro hs
    constructor
    · intro hv h0
      have hcn := hs.mp h0
      rw [scoped_callback.is_valid, hcn] at hv
      simp at hv
    · intro hne
      by_cases hc : s.callback_ = none
      · exact absurd (hs.mpr hc) hne
      · simp [scoped_callback.is_valid, Option.isSome_iff_ne_none, hc]

/-- Witness for C10 (amended) on a concrete construction. -/
theorem C10_witness :
    SCInv (scoped_callback.construct
        (callback_registry.init Nat Nat 1) idF).1 :=
  (C10_scoped_invariant (callback_registry.init Nat Nat 1) idF
      ⟨0, none⟩).1
    (by
      intro h p hreg
      rw [show (callback_registry.register_callback
          (callback_registry.init Nat Nat 1) idF).1 = some (1, some 0)
        from rfl] at hreg
      injection hreg with h1
      injection h1 with h2 h3
      omega)

/-- Counterexample for C10 as stated: on the reachable wrapped registry
the construction registers successfully yet stores handle 0 together with
a non-null pointer, so the handle/pointer invariant fails right after
construction. -/
theorem C10_counterexample :
    ((callback_registry.register_callback wrappedReg1 idF).1).isSome =
      true ∧
    ¬ SCInv (scoped_callback.construct wrappedReg1 idF).1 := by
  rw [wrappedReg1_eq]
  refine ⟨rfl, ?_⟩
  rw [show (scoped_callback.construct
      (⟨[none], [0], 0⟩ : callback_registry Nat Nat) idF).1 =
      ⟨0, some 0⟩ from rfl]
  intro hinv
  have hcontra := hinv.mp rfl
  simp at hcontra

end Idacpp
